import Mathlib

/-!
Shallow embedding of `tools/compression_bench.py` (rtach compression benchmark).

Bytes are modelled as `List Nat`; the CPython global `random` module state is
modelled explicitly as a `RandState` threaded through the generator, with the
underlying pseudo-random algorithm abstracted as a `mix` function from
(seed value, draw counter) to a raw natural-number draw.  Every property below
is proved for an arbitrary `mix`, so it holds regardless of the concrete
Mersenne-Twister outputs.  Fallible Python operations (float division that can
raise `ZeroDivisionError`) return `Option`.
-/

/-- Model of CPython's global `random` module state: the seed installed by the
last `random.seed(n)` call plus a counter of raw draws made since. -/
structure RandState where
  seedVal : Nat
  ctr : Nat
deriving DecidableEq

/-- `random.seed(n)`: replaces the whole generator state. -/
def pySeed (n : Nat) : RandState := ⟨n, 0⟩

/-- One raw draw from the generator: the draw value is an arbitrary function
`mix` of the seed and of how many draws were made so far. -/
def rawDraw (mix : Nat → Nat → Nat) (st : RandState) : Nat × RandState :=
  (mix st.seedVal st.ctr, ⟨st.seedVal, st.ctr + 1⟩)

/-- `random.randint(a, b)`: uniform over `[a, b]`, modelled as `a + draw % (b - a + 1)`. -/
def pyRandint (mix : Nat → Nat → Nat) (a b : Nat) (st : RandState) : Nat × RandState :=
  let d := rawDraw mix st
  (a + d.1 % (b - a + 1), d.2)

/-- `random.choice(l)`: one element of `l` selected by a draw (index `draw % len(l)`). -/
def pyChoice (mix : Nat → Nat → Nat) (l : List (List Nat)) (st : RandState) :
    List Nat × RandState :=
  let d := rawDraw mix st
  (l.getD (d.1 % l.length) [], d.2)

/-- `random.choices(l, k=k)`: `k` independent draws with replacement. -/
def pyChoices (mix : Nat → Nat → Nat) (l : List Nat) : Nat → RandState → List Nat × RandState
  | 0, st => ([], st)
  | k + 1, st =>
    let d := rawDraw mix st
    let rest := pyChoices mix l k d.2
    (l.getD (d.1 % l.length) 0 :: rest.1, rest.2)

/-- The `escapes` table of `generate_terminal_data` (12 ANSI escape byte strings). -/
def escapes : List (List Nat) :=
  [[27, 91, 48, 109],                              -- ESC[0m  reset
   [27, 91, 49, 109],                              -- ESC[1m  bold
   [27, 91, 51, 50, 109],                          -- ESC[32m green
   [27, 91, 51, 49, 109],                          -- ESC[31m red
   [27, 91, 48, 59, 51, 50, 109],                  -- ESC[0;32m
   [27, 91, 49, 59, 51, 51, 109],                  -- ESC[1;33m
   [27, 91, 51, 56, 59, 53, 59, 50, 48, 56, 109],  -- ESC[38;5;208m
   [27, 91, 75],                                   -- ESC[K clear line
   [27, 91, 50, 74],                               -- ESC[2J clear screen
   [27, 91, 72],                                   -- ESC[H home
   [27, 91, 63, 50, 53, 104],                      -- ESC[?25h show cursor
   [27, 91, 63, 50, 53, 108]]                      -- ESC[?25l hide cursor

/-- The `patterns` table of `generate_terminal_data` (12 shell-output byte strings). -/
def shellPatterns : List (List Nat) :=
  [[100, 114, 119, 120, 114, 45, 120, 114, 45, 120],          -- drwxr-xr-x
   [45, 114, 119, 45, 114, 45, 45, 114, 45, 45],              -- -rw-r--r--
   [116, 111, 116, 97, 108, 32],                              -- total_
   [117, 115, 101, 114, 64, 104, 111, 115, 116, 58],          -- user@host:
   [36, 32],                                                  -- dollar prompt
   [62, 62, 62, 32],                                          -- >>>_
   [46, 46, 46, 32],                                          -- ..._
   [101, 114, 114, 111, 114, 58, 32],                         -- error:_
   [119, 97, 114, 110, 105, 110, 103, 58, 32],                -- warning:_
   [32, 32, 97, 100, 100, 105, 110, 103, 58, 32],             -- __adding:_
   [67, 111, 109, 112, 105, 108, 105, 110, 103, 32],          -- Compiling_
   [32, 32, 32, 76, 105, 110, 107, 105, 110, 103, 32]]        -- ___Linking_

/-- `string.printable.encode()`: 100 bytes, in CPython order
digits ++ lowercase ++ uppercase ++ punctuation ++ whitespace. -/
def printableBytes : List Nat :=
  (List.range 10).map (fun i => 48 + i)
    ++ (List.range 26).map (fun i => 97 + i)
    ++ (List.range 26).map (fun i => 65 + i)
    ++ [33, 34, 35, 36, 37, 38, 39, 40, 41, 42, 43, 44, 45, 46, 47,
        58, 59, 60, 61, 62, 63, 64, 91, 92, 93, 94, 95, 96, 123, 124, 125, 126]
    ++ [32, 9, 10, 13, 11, 12]

/-- One iteration of the `while len(data) < size` body of `generate_terminal_data`:
draws `choice = randint(0, 10)` and appends the bytes of the selected category. -/
def terminalStep (mix : Nat → Nat → Nat) (st : RandState) : List Nat × RandState :=
  let c := pyRandint mix 0 10 st
  if c.1 ≤ 2 then
    pyChoice mix escapes c.2
  else if c.1 ≤ 4 then
    let n := pyRandint mix 1 40 c.2
    (List.replicate n.1 32, n.2)
  else if c.1 = 5 then
    let d := rawDraw mix c.2
    (if d.1 % 2 = 1 then [13, 10] else [10], d.2)
  else if c.1 ≤ 7 then
    pyChoice mix shellPatterns c.2
  else if c.1 ≤ 9 then
    let k := pyRandint mix 10 80 c.2
    pyChoices mix printableBytes k.1 k.2
  else
    ([0], c.2)

/-- The `while len(data) < size` loop of `generate_terminal_data`, fuel-based.
Every iteration appends at least one byte, so `size` units of fuel always
suffice to reach the loop's exit condition. -/
def terminalGo (mix : Nat → Nat → Nat) (size : Nat) :
    Nat → RandState → List Nat → List Nat × RandState
  | 0, st, data => (data, st)
  | fuel + 1, st, data =>
    if data.length < size then
      let s := terminalStep mix st
      terminalGo mix size fuel s.2 (data ++ s.1)
    else (data, st)

/-- `generate_terminal_data(size)`.  Takes (and returns) the global random-module
state; the first action of the source is `random.seed(12345)`, which discards
the incoming state. The loop result is truncated with `data[:size]`. -/
def generate_terminal_data (mix : Nat → Nat → Nat) (g : RandState) (size : Nat) :
    List Nat × RandState :=
  let res := terminalGo mix size size (pySeed 12345) []
  (res.1.take size, res.2)

/-- Fuel-based decimal digit rendering helper (ASCII codes, most significant first). -/
def decDigitsGo : Nat → Nat → List Nat → List Nat
  | 0, _, acc => acc
  | _ + 1, 0, acc => acc
  | fuel + 1, n, acc => decDigitsGo fuel (n / 10) ((48 + n % 10) :: acc)

/-- ASCII decimal rendering of a natural number, as Python `str(n).encode()`. -/
def decDigits (n : Nat) : List Nat :=
  if n = 0 then [48] else decDigitsGo n n []

/-- The fixed sample line `b"const foo = 123;"` of `generate_editor_data`. -/
def editorContent : List Nat :=
  [99, 111, 110, 115, 116, 32, 102, 111, 111, 32, 61, 32, 49, 50, 51, 59]

/-- The cursor-move escape `f"\x1b[{line};{col}H".encode()`. -/
def cursorEsc (line col : Nat) : List Nat :=
  [27, 91] ++ decDigits line ++ [59] ++ decDigits col ++ [72]

/-- The line update `line = (line % 50) + 1` of `generate_editor_data`. -/
def nextLine (line : Nat) : Nat := line % 50 + 1

/-- The column update `col = (col % 80) + 1` of `generate_editor_data`. -/
def nextCol (col : Nat) : Nat := col % 80 + 1

/-- The `while len(data) + 20 < size` loop of `generate_editor_data`, fuel-based
(each iteration appends at least 22 bytes, so `size` units of fuel suffice).
Besides the bytes it also returns the ghost trace of emitted (line, col) pairs. -/
def editorGo (size : Nat) : Nat → Nat → Nat → List Nat → List Nat × List (Nat × Nat)
  | 0, _, _, data => (data, [])
  | fuel + 1, line, col, data =>
    if data.length + 20 < size then
      let rest := editorGo size fuel (nextLine line) (nextCol col)
        (data ++ cursorEsc line col ++ editorContent)
      (rest.1, (line, col) :: rest.2)
    else (data, [])

/-- `generate_editor_data(size)`: run the loop from line = 1, col = 1, pad with
spaces up to `size` (`b" " * (size - len(data))`, empty when negative), then
truncate with `data[:size]`. -/
def generate_editor_data (size : Nat) : List Nat :=
  let res := (editorGo size size 1 1 []).1
  (res ++ List.replicate (size - res.length) 32).take size

/-- The ghost trace of (line, col) pairs emitted by one `generate_editor_data(size)` run. -/
def editorTrace (size : Nat) : List (Nat × Nat) :=
  (editorGo size size 1 1 []).2

/-- The `while offset < len(data)` loop shared by `compress_per_frame_zlib` and
`compress_per_frame_zstd`, with the backend abstracted as a deterministic
function `comp : chunk → level → compressed bytes`.  The source advances
`offset += frame_size` over `data`; here the remainder `rem = data[offset:]` is
threaded instead, so `data[offset:offset + frame_size]` is `rem.take frame_size`.
Fuel `data.length` always suffices when `frame_size > 0` (the only case in which
the Python loop terminates). -/
def perFrameGo (comp : List Nat → Nat → List Nat) (level frame_size : Nat) :
    Nat → List Nat → Nat → Nat
  | _, [], total => total
  | 0, _, total => total
  | fuel + 1, rem, total =>
    perFrameGo comp level frame_size fuel (rem.drop frame_size)
      (total + (4 + (comp (rem.take frame_size) level).length))

/-- `compress_per_frame_zlib(data, frame_size, level)` /
`compress_per_frame_zstd(data, frame_size, level)`: total on-wire size, each
chunk contributing a 4-byte length prefix plus its compressed size. -/
def compress_per_frame (comp : List Nat → Nat → List Nat) (data : List Nat)
    (frame_size level : Nat) : Nat :=
  perFrameGo comp level frame_size data.length data 0

/-- `compress_streaming_zlib(data, level)` / `compress_streaming_zstd(data, level)`:
the payload size of one whole-buffer compression. -/
def compress_streaming (comp : List Nat → Nat → List Nat) (data : List Nat)
    (level : Nat) : Nat :=
  (comp data level).length

/-- The sequence of chunks `data[offset:offset + frame_size]` visited by the
per-frame loop, in visit order (same recursion structure as `perFrameGo`). -/
def chunksGo (frame_size : Nat) : Nat → List Nat → List (List Nat)
  | _, [] => []
  | 0, _ => []
  | fuel + 1, rem => rem.take frame_size :: chunksGo frame_size fuel (rem.drop frame_size)

/-- The chunks visited by `compress_per_frame` on `data`. -/
def perFrameChunks (data : List Nat) (frame_size : Nat) : List (List Nat) :=
  chunksGo frame_size data.length data

/-- A sample backend for concrete evaluation: "compression" that returns the
chunk unchanged at every level. -/
def cIdent : List Nat → Nat → List Nat := fun chunk _ => chunk

/-- The `Result` dataclass (lines 30-46): strategy name, original and compressed
byte counts, and elapsed nanoseconds. -/
structure Result where
  name : String
  original : Nat
  compressed : Nat
  time_ns : Nat

/-- Python float/int true division, which raises `ZeroDivisionError` on a zero
divisor: modelled as `none` on zero divisor, exact rational quotient otherwise. -/
def pyDiv (a b : ℚ) : Option ℚ :=
  if b = 0 then none else some (a / b)

/-- `Result.speed_mbps`: `seconds = time_ns / 1e9`; returns 0 when `seconds == 0`,
otherwise `(original / 1024 / 1024) / seconds` (the final division is the
guarded one; the divisions by the constants 1e9 and 1024 cannot raise). -/
def Result.speed_mbps (r : Result) : Option ℚ :=
  let seconds : ℚ := (r.time_ns : ℚ) / 10 ^ 9
  if seconds = 0 then some 0
  else pyDiv ((r.original : ℚ) / 1024 / 1024) seconds

/-- The inline throughput computation of the report loop (line 210 and its
copies): `(size / 1024 / 1024) / (ns / 1e9) if ns > 0 else 0`. -/
def reportMbps (size ns : Nat) : Option ℚ :=
  if ns > 0 then pyDiv ((size : ℚ) / 1024 / 1024) ((ns : ℚ) / 10 ^ 9) else some 0

/-- One benchmark cell of the matrix body of `main` for a fixed (size, workload). -/
inductive Cell where
  | zlibStream (level : Nat)
  | zlibFrame (frame level : Nat)
  | lzmaStream
  | zstdStream (level : Nat)
  | zstdFrame (frame : Nat)
deriving DecidableEq

/-- `test_sizes = [1024, 4096, 16384, 65536]` (line 190). -/
def test_sizes : List Nat := [1024, 4096, 16384, 65536]

/-- `frame_sizes = [256, 512, 1024, 2048, 4096]` (line 191; assigned and never read). -/
def frame_sizes : List Nat := [256, 512, 1024, 2048, 4096]

/-- The benchmark cells `main` executes for one (size, workload) table, in
program order (lines 206-244): streaming zlib at levels 1/6/9; per-frame zlib
over frames 512/1024/2048 (skipped via `continue` when `frame > size`) at
levels 1/6; streaming lzma only when `size <= 16384`; and, only when zstd is
available, streaming zstd at levels 1/3/9 and per-frame zstd over frames
1024/2048 (same skip rule) at the fixed level 3. -/
def cellsFor (hasZstd : Bool) (size : Nat) : List Cell :=
  ([1, 6, 9].map Cell.zlibStream)
    ++ ([512, 1024, 2048].flatMap fun frame =>
          if size < frame then [] else [1, 6].map (Cell.zlibFrame frame))
    ++ (if size ≤ 16384 then [Cell.lzmaStream] else [])
    ++ (if hasZstd then
          ([1, 3, 9].map Cell.zstdStream)
            ++ ([1024, 2048].flatMap fun frame =>
                  if size < frame then [] else [Cell.zstdFrame frame])
        else [])

/-- The frame size a per-frame cell uses, `none` for streaming cells. -/
def cellFrame : Cell → Option Nat
  | Cell.zlibFrame f _ => some f
  | Cell.zstdFrame f => some f
  | _ => none

/-- Whether a cell references the optional zstd backend. -/
def isZstdCell : Cell → Bool
  | Cell.zstdStream _ => true
  | Cell.zstdFrame _ => true
  | _ => false

/-- The `HAS_ZSTD` flag (lines 21-27): true exactly when the `zstandard` import
succeeded. -/
def HAS_ZSTD (importOk : Bool) : Bool := importOk

/-- The messages printed at startup (one `print` call per entry): nothing when
the import succeeds, the availability note plus the install hint when it fails.
The import failure itself is caught, so startup is a total function. -/
def startupMessages (importOk : Bool) : List String :=
  if importOk then []
  else ["Note: zstd not available, skipping zstd tests",
        "Install with: pip install zstandard\n"]

theorem pyChoices_length (mix : Nat → Nat → Nat) (l : List Nat) :
    ∀ (k : Nat) (st : RandState), ((pyChoices mix l k st).1).length = k := by
  intro k
  induction k with
  | zero => intro st; rfl
  | succ k ih =>
    intro st
    simp [pyChoices, ih]

theorem escapes_getD_length_pos : ∀ i < escapes.length, 1 ≤ (escapes.getD i []).length := by
  decide

theorem shellPatterns_getD_length_pos :
    ∀ i < shellPatterns.length, 1 ≤ (shellPatterns.getD i []).length := by
  decide

/-- Every branch of the terminal generator's loop body appends at least one byte. -/
theorem terminalStep_length_pos (mix : Nat → Nat → Nat) (st : RandState) :
    1 ≤ (terminalStep mix st).1.length := by
  simp only [terminalStep]
  split_ifs with h1 h2 h3 h4 h5 h6
  · exact escapes_getD_length_pos _ (Nat.mod_lt _ (by simp [escapes]))
  · simp [pyRandint]
  · simp
  · simp
  · exact shellPatterns_getD_length_pos _ (Nat.mod_lt _ (by simp [shellPatterns]))
  · rw [pyChoices_length]
    simp [pyRandint]
    omega
  · exact Nat.le.refl

/-- With at least `size - len(data)` fuel, the terminal loop exits only once the
accumulated data has reached `size` bytes. -/
theorem terminalGo_length (mix : Nat → Nat → Nat) (size : Nat) :
    ∀ (fuel : Nat) (st : RandState) (data : List Nat),
      size ≤ data.length + fuel → size ≤ (terminalGo mix size fuel st data).1.length := by
  intro fuel
  induction fuel with
  | zero =>
    intro st data h
    simpa [terminalGo] using h
  | succ fuel ih =>
    intro st data h
    rw [terminalGo]
    split_ifs with hlt
    · have hpos := terminalStep_length_pos mix st
      exact ih _ _ (by simp only [List.length_append]; omega)
    · simpa using Nat.le_of_not_lt hlt

theorem ceil_shift (a fs : Nat) (hfs : 0 < fs) :
    (a + 1 - fs + fs - 1) / fs = a / fs := by
  rcases le_or_lt fs (a + 1) with h | h
  · have he : a + 1 - fs + fs - 1 = a := by omega
    rw [he]
  · have he : a + 1 - fs = 0 := by omega
    rw [he, Nat.div_eq_of_lt (by omega), Nat.div_eq_of_lt (by omega)]

/-- With enough fuel the chunk sequence visited by the per-frame loop is exactly
the `ceil(len / frame_size)` slices `data[k * frame_size:(k + 1) * frame_size]`. -/
theorem chunksGo_eq_range (fs : Nat) (hfs : 0 < fs) :
    ∀ (fuel : Nat) (rem : List Nat), rem.length ≤ fuel →
      chunksGo fs fuel rem
        = (List.range ((rem.length + fs - 1) / fs)).map
            (fun k => (rem.drop (k * fs)).take fs) := by
  intro fuel
  induction fuel with
  | zero =>
    intro rem h
    have hrem : rem = [] := List.eq_nil_of_length_eq_zero (Nat.le_zero.mp h)
    subst hrem
    simp [chunksGo, Nat.div_eq_of_lt (by omega : fs - 1 < fs)]
  | succ fuel ih =>
    intro rem h
    cases rem with
    | nil => simp [chunksGo, Nat.div_eq_of_lt (by omega : fs - 1 < fs)]
    | cons x xs =>
      have hm : ((x :: xs).length + fs - 1) / fs = xs.length / fs + 1 := by
        have he : (x :: xs).length + fs - 1 = xs.length + fs := by
          simp only [List.length_cons]
          omega
        rw [he, Nat.add_div_right _ hfs]
      have hstep : chunksGo fs (fuel + 1) (x :: xs)
          = (x :: xs).take fs :: chunksGo fs fuel ((x :: xs).drop fs) := rfl
      rw [hstep, ih ((x :: xs).drop fs)
        (by simp only [List.length_drop, List.length_cons] at h ⊢; omega), hm]
      rw [List.length_drop]
      have he2 : (x :: xs).length - fs = xs.length + 1 - fs := by
        simp only [List.length_cons]
      rw [he2, ceil_shift xs.length fs hfs]
      rw [List.range_succ_eq_map, List.map_cons, List.map_map]
      congr 1
      · simp
      · congr 1
        funext k
        simp only [Function.comp_apply, List.drop_drop]
        congr 2
        rw [Nat.succ_mul]
        exact Nat.add_comm _ _

/-- The chunks visited by the per-frame loop concatenate back to the input. -/
theorem chunksGo_flatten (fs : Nat) (hfs : 0 < fs) :
    ∀ (fuel : Nat) (rem : List Nat), rem.length ≤ fuel →
      (chunksGo fs fuel rem).flatten = rem := by
  intro fuel
  induction fuel with
  | zero =>
    intro rem h
    have hrem : rem = [] := List.eq_nil_of_length_eq_zero (Nat.le_zero.mp h)
    subst hrem
    rfl
  | succ fuel ih =>
    intro rem h
    cases rem with
    | nil => rfl
    | cons x xs =>
      have hstep : chunksGo fs (fuel + 1) (x :: xs)
          = (x :: xs).take fs :: chunksGo fs fuel ((x :: xs).drop fs) := rfl
      rw [hstep, List.flatten_cons, ih ((x :: xs).drop fs)
        (by simp only [List.length_drop, List.length_cons] at h ⊢; omega),
        List.take_append_drop]

/-- With enough fuel the per-frame loop total is the accumulator plus the sum of
`4 + compressed length` over the visited chunks. -/
theorem perFrameGo_eq (comp : List Nat → Nat → List Nat) (level fs : Nat) (hfs : 0 < fs) :
    ∀ (fuel : Nat) (rem : List Nat) (total : Nat), rem.length ≤ fuel →
      perFrameGo comp level fs fuel rem total
        = total + ((chunksGo fs fuel rem).map (fun c => 4 + (comp c level).length)).sum := by
  intro fuel
  induction fuel with
  | zero =>
    intro rem total h
    have hrem : rem = [] := List.eq_nil_of_length_eq_zero (Nat.le_zero.mp h)
    subst hrem
    simp [perFrameGo, chunksGo]
  | succ fuel ih =>
    intro rem total h
    cases rem with
    | nil => simp [perFrameGo, chunksGo]
    | cons x xs =>
      have hstep : perFrameGo comp level fs (fuel + 1) (x :: xs) total
          = perFrameGo comp level fs fuel ((x :: xs).drop fs)
              (total + (4 + (comp ((x :: xs).take fs) level).length)) := rfl
      have hstep2 : chunksGo fs (fuel + 1) (x :: xs)
          = (x :: xs).take fs :: chunksGo fs fuel ((x :: xs).drop fs) := rfl
      rw [hstep, hstep2, ih ((x :: xs).drop fs) _
        (by simp only [List.length_drop, List.length_cons] at h ⊢; omega),
        List.map_cons, List.sum_cons]
      omega

/-- Membership of a per-frame zlib cell in one (size, workload) table. -/
theorem mem_cellsFor_zlibFrame (hz : Bool) (size f lvl : Nat) :
    Cell.zlibFrame f lvl ∈ cellsFor hz size ↔
      (f = 512 ∨ f = 1024 ∨ f = 2048) ∧ (lvl = 1 ∨ lvl = 6) ∧ f ≤ size := by
  cases hz <;> simp [cellsFor] <;> omega

/-- Membership of a per-frame zstd cell in one (size, workload) table. -/
theorem mem_cellsFor_zstdFrame (hz : Bool) (size f : Nat) :
    Cell.zstdFrame f ∈ cellsFor hz size ↔
      hz = true ∧ (f = 1024 ∨ f = 2048) ∧ f ≤ size := by
  cases hz <;> simp [cellsFor] <;> omega

/-- Membership of a streaming zstd cell in one (size, workload) table. -/
theorem mem_cellsFor_zstdStream (hz : Bool) (size lvl : Nat) :
    Cell.zstdStream lvl ∈ cellsFor hz size ↔
      hz = true ∧ (lvl = 1 ∨ lvl = 3 ∨ lvl = 9) := by
  cases hz <;> simp [cellsFor] <;> omega

/-- Membership of the streaming lzma cell in one (size, workload) table. -/
theorem mem_cellsFor_lzma (hz : Bool) (size : Nat) :
    Cell.lzmaStream ∈ cellsFor hz size ↔ size ≤ 16384 := by
  cases hz <;> simp [cellsFor] <;> omega

/-- C1: for every kind in {terminal, editor} and every size ≥ 0, the generator
returns exactly `size` bytes — `len(generate_terminal_data(size)) == size` and
`len(generate_editor_data(size)) == size` — including sizes smaller than one
escape sequence or generation unit, where the loop still terminates and the
truncation/padding step yields the exact requested length.  Proved for every
abstract random stream `mix` and every incoming generator state `g`. -/
theorem c1_generate_length (mix : Nat → Nat → Nat) (g : RandState) (size : Nat) :
    ((generate_terminal_data mix g size).1).length = size
      ∧ (generate_editor_data size).length = size := by
  constructor
  · simp only [generate_terminal_data]
    rw [List.length_take]
    exact Nat.min_eq_left (terminalGo_length mix size size (pySeed 12345) [] (by simp))
  · simp only [generate_editor_data]
    rw [List.length_take, List.length_append, List.length_replicate]
    exact Nat.min_eq_left (by omega)

/-- C2: two invocations of a generator with the same (kind, size) return
byte-for-byte identical results.  The terminal generator reseeds with the fixed
seed 12345 on every call, so its whole result (bytes and final state) is
independent of the incoming global random state; the editor generator takes no
random state at all. -/
theorem c2_determinism (mix : Nat → Nat → Nat) (s1 s2 : RandState) (size : Nat) :
    generate_terminal_data mix s1 size = generate_terminal_data mix s2 size
      ∧ generate_editor_data size = generate_editor_data size :=
  ⟨rfl, rfl⟩

/-- C3: for every buffer, `frame_size > 0` and level, the per-frame total equals
the sum over the `ceil(len(data) / frame_size)` chunks
`data[k * frame_size:(k + 1) * frame_size]` of `4 + len(comp(chunk, level))`,
the compressor being an arbitrary deterministic function of (chunk, level). -/
theorem c3_per_frame_total (comp : List Nat → Nat → List Nat) (data : List Nat)
    (frame_size level : Nat) (hf : 0 < frame_size) :
    compress_per_frame comp data frame_size level
      = ((List.range ((data.length + frame_size - 1) / frame_size)).map
          (fun k => 4 + (comp ((data.drop (k * frame_size)).take frame_size) level).length)).sum := by
  rw [compress_per_frame, perFrameGo_eq comp level frame_size hf data.length data 0 le_rfl,
    chunksGo_eq_range frame_size hf data.length data le_rfl, List.map_map]
  rw [Nat.zero_add]
  rfl

/-- Witness for C3 at the concrete input data = [7, 8, 9], frame_size = 2,
level = 6, with the identity backend. -/
theorem c3_per_frame_total_witness :
    0 < 2 ∧
      compress_per_frame cIdent [7, 8, 9] 2 6
        = ((List.range ((([7, 8, 9] : List Nat).length + 2 - 1) / 2)).map
            (fun k => 4 + (cIdent ((([7, 8, 9] : List Nat).drop (k * 2)).take 2) 6).length)).sum :=
  ⟨by decide, c3_per_frame_total cIdent [7, 8, 9] 2 6 (by decide)⟩

/-- C4: for a non-empty buffer, per-frame compression with
`frame_size == len(data)` degenerates to one frame: its total is the streaming
payload size plus exactly one 4-byte header; and the runner's skip rule keeps a
per-frame cell exactly when the frame size does not exceed the buffer size
(`frame > size` skips, `frame == size` does not). -/
theorem c4_single_frame_boundary (comp : List Nat → Nat → List Nat) (data : List Nat)
    (level : Nat) (hne : data ≠ []) :
    compress_per_frame comp data data.length level
        = compress_streaming comp data level + 4
      ∧ ∀ (hz : Bool) (f lvl size : Nat), f ∈ ([512, 1024, 2048] : List Nat) →
          lvl ∈ ([1, 6] : List Nat) →
          (Cell.zlibFrame f lvl ∈ cellsFor hz size ↔ f ≤ size) := by
  constructor
  · have hpos : 0 < data.length := List.length_pos.mpr hne
    rw [compress_per_frame,
      perFrameGo_eq comp level data.length hpos data.length data 0 le_rfl,
      chunksGo_eq_range data.length hpos data.length data le_rfl]
    have hm : (data.length + data.length - 1) / data.length = 1 := by
      have he : data.length + data.length - 1 = (data.length - 1) + data.length := by omega
      rw [he, Nat.add_div_right _ hpos, Nat.div_eq_of_lt (by omega)]
    rw [hm, show List.range 1 = [0] from rfl]
    simp only [List.map_cons, List.map_nil, List.sum_cons, List.sum_nil,
      Nat.zero_mul, List.drop_zero, List.take_length, Nat.zero_add, compress_streaming]
    omega
  · intro hz f lvl size hf hl
    simp only [List.mem_cons, List.not_mem_nil, or_false] at hf hl
    rw [mem_cellsFor_zlibFrame]
    constructor
    · rintro ⟨-, -, h⟩
      exact h
    · intro h
      exact ⟨hf, hl, h⟩

/-- Witness for C4 at the concrete input data = [5] (frame size 1 = its length)
with the identity backend, plus the boundary skip case frame = size = 512. -/
theorem c4_single_frame_boundary_witness :
    compress_per_frame cIdent [5] 1 1 = compress_streaming cIdent [5] 1 + 4
      ∧ (Cell.zlibFrame 512 1 ∈ cellsFor true 512 ↔ 512 ≤ 512) :=
  ⟨(c4_single_frame_boundary cIdent [5] 1 (by decide)).1,
   (c4_single_frame_boundary cIdent [5] 1 (by decide)).2 true 512 1 512
     (by decide) (by decide)⟩

/-- C5 counterexample: the claim says every frame size in the hardcoded
`frame_sizes` set is exercised by the per-frame strategy for every buffer it
does not exceed, but frame size 256 (with buffer size 1024, even with zstd
available) is never visited by any per-frame cell: `frame_sizes` is assigned
and never read, the per-frame loops hardcode [512, 1024, 2048] and [1024, 2048]. -/
theorem c5_matrix_counterexample :
    256 ∈ frame_sizes ∧ 1024 ∈ test_sizes ∧ 256 ≤ 1024 ∧
      ∀ c ∈ cellsFor true 1024, cellFrame c ≠ some 256 := by
  decide

/-- C5 (amended): a single run executes the matrix over data sizes
1024/4096/16384/65536; the declared frame-size list is 256/512/1024/2048/4096,
but the per-frame zlib strategy exercises exactly the frame sizes 512/1024/2048
(at levels 1 and 6) and the per-frame zstd strategy exactly 1024/2048, each for
every buffer size it does not exceed; frame sizes 256 and 4096 are never
exercised. -/
theorem c5_matrix_frames (hz : Bool) (size f lvl : Nat) :
    test_sizes = [1024, 4096, 16384, 65536]
      ∧ frame_sizes = [256, 512, 1024, 2048, 4096]
      ∧ (Cell.zlibFrame f lvl ∈ cellsFor hz size ↔
          (f = 512 ∨ f = 1024 ∨ f = 2048) ∧ (lvl = 1 ∨ lvl = 6) ∧ f ≤ size)
      ∧ (Cell.zstdFrame f ∈ cellsFor hz size ↔
          hz = true ∧ (f = 1024 ∨ f = 2048) ∧ f ≤ size) :=
  ⟨rfl, rfl, mem_cellsFor_zlibFrame hz size f lvl, mem_cellsFor_zstdFrame hz size f⟩

/-- C6: the reported throughput is zero (and no division-by-zero error is
raised) when the elapsed time is zero, and equals
`(original / 1024 / 1024) / (time_ns / 1e9)` megabytes of original data per
second of elapsed time when the elapsed time is positive — both for the
`Result.speed_mbps` property and for the inline computation of the report loop;
in every case the computation yields a value rather than an error. -/
theorem c6_throughput_guard (r : Result) (size ns : Nat) :
    (r.time_ns = 0 → r.speed_mbps = some 0)
      ∧ (0 < r.time_ns →
          r.speed_mbps
            = some (((r.original : ℚ) / 1024 / 1024) / ((r.time_ns : ℚ) / 10 ^ 9)))
      ∧ (r.speed_mbps).isSome = true
      ∧ (ns = 0 → reportMbps size ns = some 0)
      ∧ (0 < ns →
          reportMbps size ns
            = some (((size : ℚ) / 1024 / 1024) / ((ns : ℚ) / 10 ^ 9)))
      ∧ (reportMbps size ns).isSome = true := by
  have hzero : r.time_ns = 0 → r.speed_mbps = some 0 := by
    intro h
    simp [Result.speed_mbps, h]
  have hpos : 0 < r.time_ns →
      r.speed_mbps = some (((r.original : ℚ) / 1024 / 1024) / ((r.time_ns : ℚ) / 10 ^ 9)) := by
    intro h
    have hne : ¬((r.time_ns : ℚ) / 10 ^ 9 = 0) := by
      rw [div_eq_zero_iff]
      simp
      omega
    simp [Result.speed_mbps, pyDiv, hne]
  have rzero : ns = 0 → reportMbps size ns = some 0 := by
    intro h
    simp [reportMbps, h]
  have rpos : 0 < ns →
      reportMbps size ns = some (((size : ℚ) / 1024 / 1024) / ((ns : ℚ) / 10 ^ 9)) := by
    intro h
    have hne : ¬((ns : ℚ) / 10 ^ 9 = 0) := by
      rw [div_eq_zero_iff]
      simp
      omega
    simp [reportMbps, pyDiv, h, hne]
  refine ⟨hzero, hpos, ?_, rzero, rpos, ?_⟩
  · rcases Nat.eq_zero_or_pos r.time_ns with h | h
    · rw [hzero h]
      rfl
    · rw [hpos h]
      rfl
  · rcases Nat.eq_zero_or_pos ns with h | h
    · rw [rzero h]
      rfl
    · rw [rpos h]
      rfl

/-- Witness for C6: zero elapsed time reports zero throughput, positive elapsed
time reports the exact quotient, at concrete measurements. -/
theorem c6_throughput_guard_witness :
    Result.speed_mbps ⟨"zlib_streaming_level6", 1048576, 500, 0⟩ = some 0
      ∧ reportMbps 1024 2
          = some ((((1024 : Nat) : ℚ) / 1024 / 1024) / (((2 : Nat) : ℚ) / 10 ^ 9)) :=
  ⟨(c6_throughput_guard ⟨"zlib_streaming_level6", 1048576, 500, 0⟩ 1024 2).1 rfl,
   (c6_throughput_guard ⟨"zlib_streaming_level6", 1048576, 500, 0⟩ 1024 2).2.2.2.2.1
     (by omega)⟩

/-- C7 counterexample: when the zstd import fails the program prints two
messages ("Note: ..." and "Install with: ..."), not a one-line notice. -/
theorem c7_notice_counterexample :
    (startupMessages false).length = 2 ∧ ¬(startupMessages false).length = 1 := by
  decide

/-- C7 (amended): when the optional zstd backend is absent at startup the
program does not raise: the import failure is caught, a short notice of two
messages (availability note and install hint) is printed once, `HAS_ZSTD` is
false, and every benchmark cell referencing zstd is omitted from the matrix. -/
theorem c7_zstd_absent (size : Nat) :
    HAS_ZSTD false = false
      ∧ startupMessages false
          = ["Note: zstd not available, skipping zstd tests",
             "Install with: pip install zstandard\n"]
      ∧ ∀ c ∈ cellsFor false size, isZstdCell c = false := by
  refine ⟨rfl, rfl, ?_⟩
  intro c hc
  cases c with
  | zlibStream level => rfl
  | zlibFrame frame level => rfl
  | lzmaStream => rfl
  | zstdStream level =>
    have := (mem_cellsFor_zstdStream false size level).mp hc
    simp at this
  | zstdFrame frame =>
    have := (mem_cellsFor_zstdFrame false size frame).mp hc
    simp at this

/-- Witness for C7 at size 1024 and the lzma cell, which is present and not a
zstd cell. -/
theorem c7_zstd_absent_witness :
    HAS_ZSTD false = false ∧ isZstdCell Cell.lzmaStream = false :=
  ⟨(c7_zstd_absent 1024).1, (c7_zstd_absent 1024).2.2 Cell.lzmaStream (by decide)⟩

/-- C8: streaming lzma is measured if and only if the data size is at most
16384 bytes; larger sizes in the test set (65536) produce no lzma measurement
and no error (the cell is simply absent from the table). -/
theorem c8_lzma_size_cutoff (hz : Bool) (size : Nat) :
    test_sizes = [1024, 4096, 16384, 65536]
      ∧ (Cell.lzmaStream ∈ cellsFor hz size ↔ size ≤ 16384) :=
  ⟨rfl, mem_cellsFor_lzma hz size⟩

/-- The cursor invariant is preserved by every iteration of the editor loop:
starting from in-range (line, col), every emitted pair is in range. -/
theorem editorGo_trace_bounds (size : Nat) :
    ∀ (fuel line col : Nat) (data : List Nat),
      1 ≤ line → line ≤ 50 → 1 ≤ col → col ≤ 80 →
      ∀ p ∈ (editorGo size fuel line col data).2,
        1 ≤ p.1 ∧ p.1 ≤ 50 ∧ 1 ≤ p.2 ∧ p.2 ≤ 80 := by
  intro fuel
  induction fuel with
  | zero =>
    intro line col data _ _ _ _ p hp
    simp [editorGo] at hp
  | succ fuel ih =>
    intro line col data h1 h2 h3 h4 p hp
    by_cases hc : data.length + 20 < size
    · have hstep : (editorGo size (fuel + 1) line col data).2
          = (line, col) :: (editorGo size fuel (nextLine line) (nextCol col)
              (data ++ cursorEsc line col ++ editorContent)).2 := by
        simp only [editorGo, if_pos hc]
      rw [hstep] at hp
      rcases List.mem_cons.mp hp with h | h
      · subst h
        exact ⟨h1, h2, h3, h4⟩
      · refine ih (nextLine line) (nextCol col) _ ?_ ?_ ?_ ?_ p h
        · simp [nextLine]
        · have := Nat.mod_lt line (show 0 < 50 by omega)
          simp [nextLine]
          omega
        · simp [nextCol]
        · have := Nat.mod_lt col (show 0 < 80 by omega)
          simp [nextCol]
          omega
    · have hstep : (editorGo size (fuel + 1) line col data).2 = [] := by
        simp only [editorGo, if_neg hc]
      rw [hstep] at hp
      simp at hp

/-- C9: every (line, col) pair emitted by the editor generator stays in the
bounded cycle 1 ≤ line ≤ 50 and 1 ≤ col ≤ 80 (the invariant holds from the
initial state line = 1, col = 1 and is preserved by every iteration), where the
per-iteration updates increment within the range and wrap 50 back to 1 and 80
back to 1. -/
theorem c9_cursor_cycle (size : Nat) :
    (∀ p ∈ editorTrace size, 1 ≤ p.1 ∧ p.1 ≤ 50 ∧ 1 ≤ p.2 ∧ p.2 ≤ 80)
      ∧ nextLine 50 = 1 ∧ nextCol 80 = 1
      ∧ (∀ l, 1 ≤ l → l ≤ 49 → nextLine l = l + 1)
      ∧ (∀ c, 1 ≤ c → c ≤ 79 → nextCol c = c + 1) := by
  refine ⟨?_, rfl, rfl, ?_, ?_⟩
  · intro p hp
    exact editorGo_trace_bounds size size 1 1 [] (by omega) (by omega) (by omega) (by omega) p hp
  · intro l hl1 hl2
    unfold nextLine
    rw [Nat.mod_eq_of_lt (by omega)]
  · intro c hc1 hc2
    unfold nextCol
    rw [Nat.mod_eq_of_lt (by omega)]

/-- Witness for C9: at size 60 the generator emits the pairs (1, 1) and (2, 2);
the first is in bounds by the theorem. -/
theorem c9_cursor_cycle_witness :
    (1, 1) ∈ editorTrace 60
      ∧ (1 ≤ ((1, 1) : Nat × Nat).1 ∧ ((1, 1) : Nat × Nat).1 ≤ 50
          ∧ 1 ≤ ((1, 1) : Nat × Nat).2 ∧ ((1, 1) : Nat × Nat).2 ≤ 80) :=
  ⟨by decide, (c9_cursor_cycle 60).1 (1, 1) (by decide)⟩

/-- C10: the chunks visited by the per-frame loop are exactly the slices
`data[k * frame_size:(k + 1) * frame_size]` for `k` ranging over the
`ceil(len(data) / frame_size)` chunk indices, and they concatenate back to
`data` — an exact partition, so no input byte is compressed twice or skipped. -/
theorem c10_chunk_partition (data : List Nat) (frame_size : Nat) (hf : 0 < frame_size) :
    perFrameChunks data frame_size
        = (List.range ((data.length + frame_size - 1) / frame_size)).map
            (fun k => (data.drop (k * frame_size)).take frame_size)
      ∧ (perFrameChunks data frame_size).flatten = data :=
  ⟨chunksGo_eq_range frame_size hf data.length data le_rfl,
   chunksGo_flatten frame_size hf data.length data le_rfl⟩

/-- Witness for C10 at the concrete input data = [1, 2, 3, 4, 5], frame_size = 2. -/
theorem c10_chunk_partition_witness :
    0 < 2
      ∧ (perFrameChunks [1, 2, 3, 4, 5] 2
            = (List.range ((([1, 2, 3, 4, 5] : List Nat).length + 2 - 1) / 2)).map
                (fun k => (([1, 2, 3, 4, 5] : List Nat).drop (k * 2)).take 2)
          ∧ (perFrameChunks [1, 2, 3, 4, 5] 2).flatten = [1, 2, 3, 4, 5]) :=
  ⟨by decide, c10_chunk_partition [1, 2, 3, 4, 5] 2 (by decide)⟩
